import Mathlib

set_option autoImplicit false

namespace PaymentEngine

/-- Monetary amounts. The source uses `rust_decimal::Decimal`, an exact
decimal fixed-point number (the CSV layer rounds every amount to four
fractional digits on ingestion). Addition, subtraction and comparison on
`Decimal` are exact, so amounts are modelled as unbounded integers counting
units of 10 to the minus 4. -/
abbrev Amount := Int

/-- Mirror of `enum Transaction` in src/src/transaction.rs. -/
inductive Transaction where
  | Deposit (client : Nat) (tx : Nat) (amount : Amount)
  | Withdrawal (client : Nat) (tx : Nat) (amount : Amount)
  | Dispute (client : Nat) (tx : Nat)
  | Resolve (client : Nat) (tx : Nat)
  | Chargeback (client : Nat) (tx : Nat)
deriving DecidableEq

/-- Mirror of `enum ExecutionError` in src/src/engine.rs. -/
inductive ExecutionError where
  | InsufficientFunds
  | AccountLocked
  | TransactionNotFound
  | IneligibleTransaction
  | NonDisputedTransaction
  | AlreadyDisputedTransaction
deriving DecidableEq

/-- Mirror of `struct Client` in src/src/client.rs. -/
structure Client where
  id : Nat
  available : Amount
  held : Amount
  total : Amount
  locked : Bool
deriving DecidableEq

/-- Mirror of `Client::new` in src/src/client.rs: all balances zero, unlocked. -/
def Client.new (id : Nat) : Client :=
  { id := id, available := 0, held := 0, total := 0, locked := false }

/-- Insertion into a map modelled as a function, mirroring `BTreeMap::insert`. -/
def mapInsert {α : Type} (m : Nat → Option α) (k : Nat) (v : α) : Nat → Option α :=
  fun k2 => if k2 = k then some v else m k2

/-- Insertion into a set modelled as a Boolean function, mirroring `BTreeSet::insert`. -/
def setInsert (s : Nat → Bool) (k : Nat) : Nat → Bool :=
  fun k2 => if k2 = k then true else s k2

/-- Removal from a set modelled as a Boolean function, mirroring `BTreeSet::remove`. -/
def setRemove (s : Nat → Bool) (k : Nat) : Nat → Bool :=
  fun k2 => if k2 = k then false else s k2

/-- Mirror of `struct Engine` in src/src/engine.rs: the Account Ledger Store
(`clients`), the Transaction History (`transaction_log`) and the Dispute Set
(`disputed_transactions`), each modelled extensionally. -/
structure Engine where
  clients : Nat → Option Client
  transaction_log : Nat → Option Transaction
  disputed_transactions : Nat → Bool

/-- Mirror of `Engine::new`: all three stores empty. -/
def Engine.new : Engine :=
  { clients := fun _ => none, transaction_log := fun _ => none,
    disputed_transactions := fun _ => false }

/-- Mirror of `Engine::fetch_or_create_client_mut`. The Rust function first
runs `entry(client_id).or_insert(Client::new(client_id))` — inserting a fresh
client when the key is vacant — and only then checks `locked`. Since the
source mutates `self` through `&mut`, the (possibly extended) ledger is
returned alongside the result. -/
def Engine.fetch_or_create_client_mut (e : Engine) (client_id : Nat) :
    Engine × Except ExecutionError Client :=
  match e.clients client_id with
  | some client =>
      if client.locked then (e, Except.error ExecutionError.AccountLocked)
      else (e, Except.ok client)
  | none =>
      let client := Client.new client_id
      let e2 := { e with clients := mapInsert e.clients client_id client }
      if client.locked then (e2, Except.error ExecutionError.AccountLocked)
      else (e2, Except.ok client)

/-- Mirror of `Engine::fetch_disputed_transaction`: look the id up in the
Transaction History; absent ids give `TransactionNotFound`, non-Deposit
entries give `IneligibleTransaction`, a Deposit yields its owner and amount. -/
def Engine.fetch_disputed_transaction (e : Engine) (tx_id : Nat) :
    Except ExecutionError (Nat × Amount) :=
  match e.transaction_log tx_id with
  | none => Except.error ExecutionError.TransactionNotFound
  | some (Transaction.Deposit client_id _ amount) => Except.ok (client_id, amount)
  | some _ => Except.error ExecutionError.IneligibleTransaction

/-- Mirror of `Engine::execute`. Because the Rust method takes `&mut self`
and returns `Result<(), ExecutionError>`, any mutation performed before an
early `return Err(..)` persists; the model therefore returns the final engine
state together with `none` for `Ok(())` or `some err` for `Err(err)`. -/
def Engine.execute (e : Engine) (transaction : Transaction) :
    Engine × Option ExecutionError :=
  match transaction with
  | Transaction.Deposit client_id tx_id amount =>
      match e.fetch_or_create_client_mut client_id with
      | (e1, Except.error err) => (e1, some err)
      | (e1, Except.ok client) =>
          let client2 := { client with available := client.available + amount,
                                       total := client.total + amount }
          ({ e1 with clients := mapInsert e1.clients client_id client2,
                     transaction_log := mapInsert e1.transaction_log tx_id transaction },
           none)
  | Transaction.Withdrawal client_id tx_id amount =>
      match e.fetch_or_create_client_mut client_id with
      | (e1, Except.error err) => (e1, some err)
      | (e1, Except.ok client) =>
          if client.available ≥ amount then
            let client2 := { client with available := client.available - amount,
                                         total := client.total - amount }
            ({ e1 with clients := mapInsert e1.clients client_id client2,
                       transaction_log := mapInsert e1.transaction_log tx_id transaction },
             none)
          else (e1, some ExecutionError.InsufficientFunds)
  | Transaction.Dispute _ tx_id =>
      if e.disputed_transactions tx_id then
        (e, some ExecutionError.AlreadyDisputedTransaction)
      else
        match e.fetch_disputed_transaction tx_id with
        | Except.error err => (e, some err)
        | Except.ok (src_client_id, src_amount) =>
            match e.fetch_or_create_client_mut src_client_id with
            | (e1, Except.error err) => (e1, some err)
            | (e1, Except.ok client) =>
                let client2 := { client with available := client.available - src_amount,
                                             held := client.held + src_amount }
                ({ e1 with clients := mapInsert e1.clients src_client_id client2,
                           disputed_transactions := setInsert e1.disputed_transactions tx_id },
                 none)
  | Transaction.Resolve _ tx_id =>
      if !(e.disputed_transactions tx_id) then
        (e, some ExecutionError.NonDisputedTransaction)
      else
        match e.fetch_disputed_transaction tx_id with
        | Except.error err => (e, some err)
        | Except.ok (src_client_id, src_amount) =>
            match e.fetch_or_create_client_mut src_client_id with
            | (e1, Except.error err) => (e1, some err)
            | (e1, Except.ok client) =>
                let client2 := { client with available := client.available + src_amount,
                                             held := client.held - src_amount }
                ({ e1 with clients := mapInsert e1.clients src_client_id client2,
                           disputed_transactions := setRemove e1.disputed_transactions tx_id },
                 none)
  | Transaction.Chargeback _ tx_id =>
      if !(e.disputed_transactions tx_id) then
        (e, some ExecutionError.NonDisputedTransaction)
      else
        match e.fetch_disputed_transaction tx_id with
        | Except.error err => (e, some err)
        | Except.ok (src_client_id, src_amount) =>
            match e.fetch_or_create_client_mut src_client_id with
            | (e1, Except.error err) => (e1, some err)
            | (e1, Except.ok client) =>
                let client2 := { client with held := client.held - src_amount,
                                             total := client.total - src_amount,
                                             locked := true }
                ({ e1 with clients := mapInsert e1.clients src_client_id client2,
                           disputed_transactions := setRemove e1.disputed_transactions tx_id },
                 none)

/-- Folding a list of transactions through the engine, mirroring the loop in
src/src/main.rs: on an execution error a diagnostic is printed and processing
continues with the next record, keeping whatever state `execute` left behind. -/
def Engine.run (e : Engine) : List Transaction → Engine
  | [] => e
  | t :: ts => Engine.run (e.execute t).1 ts

/-- The account an identifier resolves to: the stored entry when present,
otherwise the fresh account `fetch_or_create_client_mut` would create. -/
def Engine.getClient (e : Engine) (client_id : Nat) : Client :=
  match e.clients client_id with
  | some c => c
  | none => Client.new client_id

/-- The ledger after `entry(client_id).or_insert(Client::new(client_id))`:
unchanged when the key is present, extended with a fresh account otherwise. -/
def Engine.ensureClient (e : Engine) (client_id : Nat) : Engine :=
  match e.clients client_id with
  | some _ => e
  | none => { e with clients := mapInsert e.clients client_id (Client.new client_id) }

theorem mapInsert_self {α : Type} (m : Nat → Option α) (k : Nat) (v : α) :
    mapInsert m k v k = some v := by
  simp [mapInsert]

theorem mapInsert_ne {α : Type} (m : Nat → Option α) (k k2 : Nat) (v : α) (h : k2 ≠ k) :
    mapInsert m k v k2 = m k2 := by
  simp [mapInsert, h]

theorem foc_eq (e : Engine) (cid : Nat) :
    e.fetch_or_create_client_mut cid =
      (e.ensureClient cid,
       if (e.getClient cid).locked then Except.error ExecutionError.AccountLocked
       else Except.ok (e.getClient cid)) := by
  unfold Engine.fetch_or_create_client_mut Engine.ensureClient Engine.getClient
  cases h : e.clients cid with
  | none => simp [Client.new]
  | some c => by_cases hl : c.locked <;> simp [hl]

theorem ensureClient_transaction_log (e : Engine) (cid : Nat) :
    (e.ensureClient cid).transaction_log = e.transaction_log := by
  unfold Engine.ensureClient
  cases e.clients cid <;> rfl

theorem ensureClient_disputed (e : Engine) (cid : Nat) :
    (e.ensureClient cid).disputed_transactions = e.disputed_transactions := by
  unfold Engine.ensureClient
  cases e.clients cid <;> rfl

theorem ensureClient_getClient (e : Engine) (cid x : Nat) :
    (e.ensureClient cid).getClient x = e.getClient x := by
  unfold Engine.ensureClient Engine.getClient
  cases h : e.clients cid with
  | none =>
      by_cases hx : x = cid
      · subst hx
        simp [mapInsert, h]
      · simp [mapInsert, hx]
  | some c => rfl

theorem ensureClient_clients_some (e : Engine) (cid x : Nat) (c : Client)
    (h : e.clients x = some c) : (e.ensureClient cid).clients x = some c := by
  unfold Engine.ensureClient
  cases h2 : e.clients cid with
  | none =>
      by_cases hx : x = cid
      · subst hx
        rw [h] at h2
        exact absurd h2 (by simp)
      · simpa [mapInsert, hx] using h
  | some c2 => exact h

theorem getClient_locked_clients (e : Engine) (cid : Nat)
    (h : (e.getClient cid).locked = true) : e.clients cid = some (e.getClient cid) := by
  unfold Engine.getClient at *
  cases h2 : e.clients cid with
  | none =>
      rw [h2] at h
      simp [Client.new] at h
  | some c => simp

theorem ensureClient_of_some (e : Engine) (cid : Nat) (c : Client)
    (h : e.clients cid = some c) : e.ensureClient cid = e := by
  unfold Engine.ensureClient
  rw [h]

theorem execute_deposit (e : Engine) (cid t : Nat) (a : Amount) :
    e.execute (Transaction.Deposit cid t a) =
      if (e.getClient cid).locked then (e.ensureClient cid, some ExecutionError.AccountLocked)
      else
        ({ e.ensureClient cid with
             clients := mapInsert (e.ensureClient cid).clients cid
               { e.getClient cid with
                   available := (e.getClient cid).available + a,
                   total := (e.getClient cid).total + a },
             transaction_log := mapInsert (e.ensureClient cid).transaction_log t
               (Transaction.Deposit cid t a) },
         none) := by
  simp only [Engine.execute]
  rw [foc_eq]
  by_cases hl : (e.getClient cid).locked <;> simp [hl]

theorem execute_withdrawal (e : Engine) (cid t : Nat) (a : Amount) :
    e.execute (Transaction.Withdrawal cid t a) =
      if (e.getClient cid).locked then (e.ensureClient cid, some ExecutionError.AccountLocked)
      else if (e.getClient cid).available ≥ a then
        ({ e.ensureClient cid with
             clients := mapInsert (e.ensureClient cid).clients cid
               { e.getClient cid with
                   available := (e.getClient cid).available - a,
                   total := (e.getClient cid).total - a },
             transaction_log := mapInsert (e.ensureClient cid).transaction_log t
               (Transaction.Withdrawal cid t a) },
         none)
      else (e.ensureClient cid, some ExecutionError.InsufficientFunds) := by
  simp only [Engine.execute]
  rw [foc_eq]
  by_cases hl : (e.getClient cid).locked
  · simp [hl]
  · by_cases ha : (e.getClient cid).available ≥ a <;> simp [hl, ha]

theorem execute_dispute (e : Engine) (x t : Nat) :
    e.execute (Transaction.Dispute x t) =
      if e.disputed_transactions t then (e, some ExecutionError.AlreadyDisputedTransaction)
      else
        match e.fetch_disputed_transaction t with
        | Except.error err => (e, some err)
        | Except.ok (c, a) =>
            if (e.getClient c).locked then (e.ensureClient c, some ExecutionError.AccountLocked)
            else
              ({ e.ensureClient c with
                   clients := mapInsert (e.ensureClient c).clients c
                     { e.getClient c with
                         available := (e.getClient c).available - a,
                         held := (e.getClient c).held + a },
                   disputed_transactions := setInsert (e.ensureClient c).disputed_transactions t },
               none) := by
  simp only [Engine.execute]
  by_cases hd : e.disputed_transactions t = true
  · simp [hd]
  · cases hf : e.fetch_disputed_transaction t with
    | error err => simp [hd, hf]
    | ok p =>
        obtain ⟨c, a⟩ := p
        by_cases hl : (e.getClient c).locked <;> simp [hd, hf, foc_eq, hl]

theorem execute_resolve (e : Engine) (x t : Nat) :
    e.execute (Transaction.Resolve x t) =
      if e.disputed_transactions t = false then (e, some ExecutionError.NonDisputedTransaction)
      else
        match e.fetch_disputed_transaction t with
        | Except.error err => (e, some err)
        | Except.ok (c, a) =>
            if (e.getClient c).locked then (e.ensureClient c, some ExecutionError.AccountLocked)
            else
              ({ e.ensureClient c with
                   clients := mapInsert (e.ensureClient c).clients c
                     { e.getClient c with
                         available := (e.getClient c).available + a,
                         held := (e.getClient c).held - a },
                   disputed_transactions := setRemove (e.ensureClient c).disputed_transactions t },
               none) := by
  simp only [Engine.execute]
  by_cases hd : e.disputed_transactions t = true
  · cases hf : e.fetch_disputed_transaction t with
    | error err => simp [hd, hf]
    | ok p =>
        obtain ⟨c, a⟩ := p
        by_cases hl : (e.getClient c).locked <;> simp [hd, hf, foc_eq, hl]
  · simp [hd]

theorem execute_chargeback (e : Engine) (x t : Nat) :
    e.execute (Transaction.Chargeback x t) =
      if e.disputed_transactions t = false then (e, some ExecutionError.NonDisputedTransaction)
      else
        match e.fetch_disputed_transaction t with
        | Except.error err => (e, some err)
        | Except.ok (c, a) =>
            if (e.getClient c).locked then (e.ensureClient c, some ExecutionError.AccountLocked)
            else
              ({ e.ensureClient c with
                   clients := mapInsert (e.ensureClient c).clients c
                     { e.getClient c with
                         held := (e.getClient c).held - a,
                         total := (e.getClient c).total - a,
                         locked := true },
                   disputed_transactions := setRemove (e.ensureClient c).disputed_transactions t },
               none) := by
  simp only [Engine.execute]
  by_cases hd : e.disputed_transactions t = true
  · cases hf : e.fetch_disputed_transaction t with
    | error err => simp [hd, hf]
    | ok p =>
        obtain ⟨c, a⟩ := p
        by_cases hl : (e.getClient c).locked <;> simp [hd, hf, foc_eq, hl]
  · simp [hd]

def ClientInv (c : Client) : Prop := c.total = c.available + c.held

def LedgerInv (m : Nat → Option Client) : Prop :=
  ∀ cid c, m cid = some c → ClientInv c

def EngineInv (e : Engine) : Prop := LedgerInv e.clients

theorem clientInv_new (cid : Nat) : ClientInv (Client.new cid) := by
  simp [ClientInv, Client.new]

theorem ledgerInv_mapInsert {m : Nat → Option Client} {k : Nat} {v : Client}
    (h : LedgerInv m) (hv : ClientInv v) : LedgerInv (mapInsert m k v) := by
  intro cid c hc
  unfold mapInsert at hc
  by_cases hk : cid = k
  · simp [hk] at hc
    exact hc ▸ hv
  · simp [hk] at hc
    exact h cid c hc

theorem engineInv_getClient {e : Engine} (cid : Nat) (h : EngineInv e) :
    ClientInv (e.getClient cid) := by
  unfold Engine.getClient
  cases h2 : e.clients cid with
  | none => exact clientInv_new cid
  | some c => exact h cid c h2

theorem engineInv_ensure {e : Engine} (cid : Nat) (h : EngineInv e) :
    EngineInv (e.ensureClient cid) := by
  unfold Engine.ensureClient
  cases h2 : e.clients cid with
  | none => exact ledgerInv_mapInsert h (clientInv_new cid)
  | some c => exact h

theorem getClient_after_insert (e : Engine) (c2 x : Nat) (v : Client)
    (lg : Nat → Option Transaction) (ds : Nat → Bool) :
    (Engine.mk (mapInsert (e.ensureClient c2).clients c2 v) lg ds).getClient x
      = if x = c2 then v else e.getClient x := by
  unfold Engine.getClient
  by_cases hx : x = c2
  · subst hx
    simp [mapInsert]
  · have h2 := ensureClient_getClient e c2 x
    unfold Engine.getClient at h2
    simp only [mapInsert, if_neg hx]
    simpa [hx] using h2

theorem engineInv_execute {e : Engine} (t : Transaction) (h : EngineInv e) :
    EngineInv (e.execute t).1 := by
  have hg : ∀ cid : Nat, ClientInv (e.getClient cid) := fun cid => engineInv_getClient cid h
  cases t with
  | Deposit c2 tx a =>
      rw [execute_deposit]
      by_cases hl : (e.getClient c2).locked = true
      · simpa [hl] using engineInv_ensure c2 h
      · simp only [hl, if_false, Bool.false_eq_true]
        refine ledgerInv_mapInsert (engineInv_ensure c2 h) ?_
        have := hg c2
        simp [ClientInv] at this ⊢
        linarith
  | Withdrawal c2 tx a =>
      rw [execute_withdrawal]
      by_cases hl : (e.getClient c2).locked = true
      · simpa [hl] using engineInv_ensure c2 h
      · by_cases ha : (e.getClient c2).available ≥ a
        · simp only [hl, ha, if_false, if_true, Bool.false_eq_true]
          refine ledgerInv_mapInsert (engineInv_ensure c2 h) ?_
          have := hg c2
          simp [ClientInv] at this ⊢
          linarith
        · simpa [hl, ha] using engineInv_ensure c2 h
  | Dispute x t2 =>
      rw [execute_dispute]
      by_cases hd : e.disputed_transactions t2 = true
      · simpa [hd] using h
      · cases hf : e.fetch_disputed_transaction t2 with
        | error err => simpa [hd, hf] using h
        | ok p =>
            obtain ⟨c, a⟩ := p
            by_cases hl : (e.getClient c).locked = true
            · simpa [hd, hf, hl] using engineInv_ensure c h
            · simp only [hd, hf, hl, if_false, Bool.false_eq_true]
              refine ledgerInv_mapInsert (engineInv_ensure c h) ?_
              have := hg c
              simp [ClientInv] at this ⊢
              linarith
  | Resolve x t2 =>
      rw [execute_resolve]
      by_cases hd : e.disputed_transactions t2 = true
      · simp only [hd, Bool.true_eq_false, if_false]
        cases hf : e.fetch_disputed_transaction t2 with
        | error err => simpa [hf] using h
        | ok p =>
            obtain ⟨c, a⟩ := p
            by_cases hl : (e.getClient c).locked = true
            · simpa [hf, hl] using engineInv_ensure c h
            · simp only [hf, hl, if_false, Bool.false_eq_true]
              refine ledgerInv_mapInsert (engineInv_ensure c h) ?_
              have := hg c
              simp [ClientInv] at this ⊢
              linarith
      · simp only [Bool.not_eq_true] at hd
        simpa [hd] using h
  | Chargeback x t2 =>
      rw [execute_chargeback]
      by_cases hd : e.disputed_transactions t2 = true
      · simp only [hd, Bool.true_eq_false, if_false]
        cases hf : e.fetch_disputed_transaction t2 with
        | error err => simpa [hf] using h
        | ok p =>
            obtain ⟨c, a⟩ := p
            by_cases hl : (e.getClient c).locked = true
            · simpa [hf, hl] using engineInv_ensure c h
            · simp only [hf, hl, if_false, Bool.false_eq_true]
              refine ledgerInv_mapInsert (engineInv_ensure c h) ?_
              have := hg c
              simp [ClientInv] at this ⊢
              linarith
      · simp only [Bool.not_eq_true] at hd
        simpa [hd] using h

theorem engineInv_run (txs : List Transaction) {e : Engine} (h : EngineInv e) :
    EngineInv (Engine.run e txs) := by
  induction txs generalizing e with
  | nil => exact h
  | cons t ts ih => exact ih (engineInv_execute t h)

theorem engineInv_new : EngineInv Engine.new := by
  intro cid c h
  simp [Engine.new] at h

theorem ensureClient_clients_ne (e : Engine) (cid x : Nat) (h : x ≠ cid) :
    (e.ensureClient cid).clients x = e.clients x := by
  unfold Engine.ensureClient
  cases e.clients cid with
  | none => simp [mapInsert, h]
  | some c => rfl

theorem ensure_preserves (e : Engine) (k : Nat) :
    (e.ensureClient k).transaction_log = e.transaction_log ∧
    (e.ensureClient k).disputed_transactions = e.disputed_transactions ∧
    (∀ cid : Nat, (e.ensureClient k).getClient cid = e.getClient cid) ∧
    (∀ (cid : Nat) (c : Client), e.clients cid = some c → (e.ensureClient k).clients cid = some c) :=
  ⟨ensureClient_transaction_log e k, ensureClient_disputed e k,
   fun cid => ensureClient_getClient e k cid,
   fun cid c h => ensureClient_clients_some e k cid c h⟩

theorem self_preserves (e : Engine) :
    e.transaction_log = e.transaction_log ∧
    e.disputed_transactions = e.disputed_transactions ∧
    (∀ cid : Nat, e.getClient cid = e.getClient cid) ∧
    (∀ (cid : Nat) (c : Client), e.clients cid = some c → e.clients cid = some c) :=
  ⟨rfl, rfl, fun _ => rfl, fun _ _ h => h⟩

/-- C1: starting from `Engine.new` and applying any sequence of transactions
through `Engine.execute`, every account present in the Account Ledger Store
satisfies `total = available + held`. -/
theorem C1_total_eq_available_plus_held (txs : List Transaction) (cid : Nat) (c : Client)
    (h : (Engine.run Engine.new txs).clients cid = some c) :
    c.total = c.available + c.held :=
  engineInv_run txs engineInv_new cid c h

theorem C1_witness :
    ((Engine.run Engine.new [Transaction.Deposit 1 100 10]).clients 1
        = some { id := 1, available := 10, held := 0, total := 10, locked := false }) ∧
    (({ id := 1, available := 10, held := 0, total := 10, locked := false } : Client).total
        = ({ id := 1, available := 10, held := 0, total := 10, locked := false } : Client).available
          + ({ id := 1, available := 10, held := 0, total := 10, locked := false } : Client).held) :=
  ⟨by decide, C1_total_eq_available_plus_held [Transaction.Deposit 1 100 10] 1 _ (by decide)⟩

/-- C2 counterexample: executing `Withdrawal(1, 1, 1)` on the empty engine
returns `InsufficientFunds`, yet the Account Ledger Store gains a fresh
account entry for client 1 that was absent before the call, so a failing
`execute` is not free of all state mutation. -/
theorem C2_counterexample :
    (Engine.new.execute (Transaction.Withdrawal 1 1 1)).2
        = some ExecutionError.InsufficientFunds ∧
    Engine.new.clients 1 = none ∧
    (Engine.new.execute (Transaction.Withdrawal 1 1 1)).1.clients 1
        = some (Client.new 1) := by
  decide

/-- C2 (amended): whenever `Engine.execute` returns an error, the Transaction
History and the Dispute Set are unchanged, every account resolves to the same
balances and lock flag as before, and every account entry that existed before
still holds the same value; the only possible mutation is the insertion of a
fresh zero-balance unlocked account entry by `fetch_or_create_client_mut`. -/
theorem C2_error_mutation_bounded (e : Engine) (t : Transaction) (err : ExecutionError)
    (h : (e.execute t).2 = some err) :
    (e.execute t).1.transaction_log = e.transaction_log ∧
    (e.execute t).1.disputed_transactions = e.disputed_transactions ∧
    (∀ cid : Nat, (e.execute t).1.getClient cid = e.getClient cid) ∧
    (∀ (cid : Nat) (c : Client), e.clients cid = some c →
        (e.execute t).1.clients cid = some c) := by
  cases t with
  | Deposit c2 tx a =>
      rw [execute_deposit] at h ⊢
      by_cases hl : (e.getClient c2).locked = true
      · simpa [hl] using ensure_preserves e c2
      · simp [hl] at h
  | Withdrawal c2 tx a =>
      rw [execute_withdrawal] at h ⊢
      by_cases hl : (e.getClient c2).locked = true
      · simpa [hl] using ensure_preserves e c2
      · by_cases ha : (e.getClient c2).available ≥ a
        · simp [hl, ha] at h
        · simpa [hl, ha] using ensure_preserves e c2
  | Dispute x t2 =>
      rw [execute_dispute] at h ⊢
      by_cases hd : e.disputed_transactions t2 = true
      · simp [hd]
      · cases hf : e.fetch_disputed_transaction t2 with
        | error err2 => simp [hd, hf]
        | ok p =>
            obtain ⟨c, a⟩ := p
            by_cases hl : (e.getClient c).locked = true
            · simpa [hd, hf, hl] using ensure_preserves e c
            · simp [hd, hf, hl] at h
  | Resolve x t2 =>
      rw [execute_resolve] at h ⊢
      by_cases hd : e.disputed_transactions t2 = true
      · simp only [hd, Bool.true_eq_false, if_false] at h ⊢
        cases hf : e.fetch_disputed_transaction t2 with
        | error err2 => simp [hf]
        | ok p =>
            obtain ⟨c, a⟩ := p
            by_cases hl : (e.getClient c).locked = true
            · simpa [hf, hl] using ensure_preserves e c
            · simp [hf, hl] at h
      · simp only [Bool.not_eq_true] at hd
        simp [hd]
  | Chargeback x t2 =>
      rw [execute_chargeback] at h ⊢
      by_cases hd : e.disputed_transactions t2 = true
      · simp only [hd, Bool.true_eq_false, if_false] at h ⊢
        cases hf : e.fetch_disputed_transaction t2 with
        | error err2 => simp [hf]
        | ok p =>
            obtain ⟨c, a⟩ := p
            by_cases hl : (e.getClient c).locked = true
            · simpa [hf, hl] using ensure_preserves e c
            · simp [hf, hl] at h
      · simp only [Bool.not_eq_true] at hd
        simp [hd]

theorem C2_witness :
    ((Engine.new.execute (Transaction.Withdrawal 1 1 1)).2
        = some ExecutionError.InsufficientFunds) ∧
    (Engine.new.execute (Transaction.Withdrawal 1 1 1)).1.transaction_log
        = Engine.new.transaction_log :=
  ⟨by decide,
   (C2_error_mutation_bounded Engine.new (Transaction.Withdrawal 1 1 1)
      ExecutionError.InsufficientFunds (by decide)).1⟩


theorem locked_persists_execute (e : Engine) (t : Transaction) (cid : Nat)
    (h : (e.getClient cid).locked = true) :
    ((e.execute t).1.getClient cid).locked = true := by
  cases t with
  | Deposit c2 tx a =>
      rw [execute_deposit]
      by_cases hl : (e.getClient c2).locked = true
      · simpa [hl, ensureClient_getClient] using h
      · simp only [hl, if_false, Bool.false_eq_true]
        rw [getClient_after_insert]
        by_cases hc : cid = c2
        · subst hc
          exact absurd h hl
        · simpa [hc] using h
  | Withdrawal c2 tx a =>
      rw [execute_withdrawal]
      by_cases hl : (e.getClient c2).locked = true
      · simpa [hl, ensureClient_getClient] using h
      · by_cases ha : (e.getClient c2).available ≥ a
        · simp only [hl, ha, if_true, if_false, Bool.false_eq_true]
          rw [getClient_after_insert]
          by_cases hc : cid = c2
          · subst hc
            exact absurd h hl
          · simpa [hc] using h
        · simpa [hl, ha, ensureClient_getClient] using h
  | Dispute x t2 =>
      rw [execute_dispute]
      by_cases hd : e.disputed_transactions t2 = true
      · simpa [hd] using h
      · cases hf : e.fetch_disputed_transaction t2 with
        | error err => simpa [hd, hf] using h
        | ok p =>
            obtain ⟨c, a⟩ := p
            by_cases hl : (e.getClient c).locked = true
            · simpa [hd, hf, hl, ensureClient_getClient] using h
            · simp only [hd, hf, hl, if_false, Bool.false_eq_true]
              rw [getClient_after_insert]
              by_cases hc : cid = c
              · subst hc
                exact absurd h hl
              · simpa [hc] using h
  | Resolve x t2 =>
      rw [execute_resolve]
      by_cases hd : e.disputed_transactions t2 = true
      · simp only [hd, Bool.true_eq_false, if_false]
        cases hf : e.fetch_disputed_transaction t2 with
        | error err => simpa [hf] using h
        | ok p =>
            obtain ⟨c, a⟩ := p
            by_cases hl : (e.getClient c).locked = true
            · simpa [hf, hl, ensureClient_getClient] using h
            · simp only [hf, hl, if_false, Bool.false_eq_true]
              rw [getClient_after_insert]
              by_cases hc : cid = c
              · subst hc
                exact absurd h hl
              · simpa [hc] using h
      · simp only [Bool.not_eq_true] at hd
        simpa [hd] using h
  | Chargeback x t2 =>
      rw [execute_chargeback]
      by_cases hd : e.disputed_transactions t2 = true
      · simp only [hd, Bool.true_eq_false, if_false]
        cases hf : e.fetch_disputed_transaction t2 with
        | error err => simpa [hf] using h
        | ok p =>
            obtain ⟨c, a⟩ := p
            by_cases hl : (e.getClient c).locked = true
            · simpa [hf, hl, ensureClient_getClient] using h
            · simp only [hf, hl, if_false, Bool.false_eq_true]
              rw [getClient_after_insert]
              by_cases hc : cid = c
              · subst hc
                simp
              · simpa [hc] using h
      · simp only [Bool.not_eq_true] at hd
        simpa [hd] using h

theorem locked_persists_run (e : Engine) (txs : List Transaction) (cid : Nat)
    (h : (e.getClient cid).locked = true) :
    ((Engine.run e txs).getClient cid).locked = true := by
  induction txs generalizing e with
  | nil => exact h
  | cons t ts ih => exact ih (e.execute t).1 (locked_persists_execute e t cid h)

theorem execute_deposit_locked (e : Engine) (cid t : Nat) (a : Amount)
    (h : (e.getClient cid).locked = true) :
    e.execute (Transaction.Deposit cid t a) = (e, some ExecutionError.AccountLocked) := by
  rw [execute_deposit, if_pos h, ensureClient_of_some e cid _ (getClient_locked_clients e cid h)]

theorem execute_withdrawal_locked (e : Engine) (cid t : Nat) (a : Amount)
    (h : (e.getClient cid).locked = true) :
    e.execute (Transaction.Withdrawal cid t a) = (e, some ExecutionError.AccountLocked) := by
  rw [execute_withdrawal, if_pos h, ensureClient_of_some e cid _ (getClient_locked_clients e cid h)]

theorem fetch_of_none (e : Engine) (tx_id : Nat) (h : e.transaction_log tx_id = none) :
    e.fetch_disputed_transaction tx_id = Except.error ExecutionError.TransactionNotFound := by
  unfold Engine.fetch_disputed_transaction
  rw [h]

theorem fetch_of_deposit (e : Engine) (tx_id c t2 : Nat) (a : Amount)
    (h : e.transaction_log tx_id = some (Transaction.Deposit c t2 a)) :
    e.fetch_disputed_transaction tx_id = Except.ok (c, a) := by
  unfold Engine.fetch_disputed_transaction
  rw [h]

theorem fetch_of_other (e : Engine) (tx_id : Nat) (tr : Transaction)
    (h : e.transaction_log tx_id = some tr)
    (hne : ∀ (c t2 : Nat) (a : Amount), tr ≠ Transaction.Deposit c t2 a) :
    e.fetch_disputed_transaction tx_id = Except.error ExecutionError.IneligibleTransaction := by
  unfold Engine.fetch_disputed_transaction
  rw [h]
  cases tr with
  | Deposit c t2 a => exact absurd rfl (hne c t2 a)
  | Withdrawal c t2 a => rfl
  | Dispute c t2 => rfl
  | Resolve c t2 => rfl
  | Chargeback c t2 => rfl


/-- C3: a Withdrawal on a locked account fails with `AccountLocked` leaving the
engine untouched; on an unlocked account with `available < amount` it fails
with `InsufficientFunds`, changing no balance and no History entry; otherwise
it succeeds, decreases `available` and `total` by exactly `amount`, and
records a History entry for `tx_id`. -/
theorem C3_withdrawal_semantics (e : Engine) (client_id tx_id : Nat) (amount : Amount) :
    ((e.getClient client_id).locked = true →
        e.execute (Transaction.Withdrawal client_id tx_id amount)
          = (e, some ExecutionError.AccountLocked)) ∧
    ((e.getClient client_id).locked = false →
      (e.getClient client_id).available < amount →
        (e.execute (Transaction.Withdrawal client_id tx_id amount)).2
            = some ExecutionError.InsufficientFunds ∧
        (∀ cid : Nat,
            (e.execute (Transaction.Withdrawal client_id tx_id amount)).1.getClient cid
              = e.getClient cid) ∧
        (e.execute (Transaction.Withdrawal client_id tx_id amount)).1.transaction_log
            = e.transaction_log) ∧
    ((e.getClient client_id).locked = false →
      amount ≤ (e.getClient client_id).available →
        (e.execute (Transaction.Withdrawal client_id tx_id amount)).2 = none ∧
        ((e.execute (Transaction.Withdrawal client_id tx_id amount)).1.getClient
            client_id).available = (e.getClient client_id).available - amount ∧
        ((e.execute (Transaction.Withdrawal client_id tx_id amount)).1.getClient
            client_id).total = (e.getClient client_id).total - amount ∧
        (e.execute (Transaction.Withdrawal client_id tx_id amount)).1.transaction_log tx_id
            = some (Transaction.Withdrawal client_id tx_id amount)) := by
  refine ⟨fun hl => execute_withdrawal_locked e client_id tx_id amount hl, ?_, ?_⟩
  · intro hl ha
    have ha2 : ¬ ((e.getClient client_id).available ≥ amount) := not_le.mpr ha
    rw [execute_withdrawal]
    simp only [hl, Bool.false_eq_true, if_false, ha2]
    exact ⟨trivial, fun cid => ensureClient_getClient e client_id cid,
           ensureClient_transaction_log e client_id⟩
  · intro hl ha
    have ha2 : (e.getClient client_id).available ≥ amount := ha
    rw [execute_withdrawal]
    simp only [hl, Bool.false_eq_true, if_false, ha2, if_true]
    refine ⟨trivial, ?_, ?_, ?_⟩
    · rw [getClient_after_insert]
      simp
    · rw [getClient_after_insert]
      simp
    · simp [mapInsert]

theorem C3_witness :
    ((Engine.run Engine.new [Transaction.Deposit 1 100 10]).getClient 1).locked = false ∧
    (4 : Amount) ≤ ((Engine.run Engine.new [Transaction.Deposit 1 100 10]).getClient 1).available ∧
    ((Engine.run Engine.new [Transaction.Deposit 1 100 10]).execute
        (Transaction.Withdrawal 1 101 4)).2 = none :=
  ⟨by decide, by decide,
   ((C3_withdrawal_semantics (Engine.run Engine.new [Transaction.Deposit 1 100 10])
        1 101 4).2.2 (by decide) (by decide)).1⟩

/-- C4 counterexample: after `Deposit(1,100,10)`, `Deposit(1,101,5)`,
`Dispute(1,101)`, `Chargeback(1,101)` the account is locked while tx 100 is an
undisputed Deposit in the History; the claim then demands that
`Dispute(1,100)` succeed, but the engine rejects it with `AccountLocked`. -/
theorem C4_counterexample :
    (Engine.run Engine.new [Transaction.Deposit 1 100 10, Transaction.Deposit 1 101 5,
        Transaction.Dispute 1 101, Transaction.Chargeback 1 101]).disputed_transactions 100
      = false ∧
    (Engine.run Engine.new [Transaction.Deposit 1 100 10, Transaction.Deposit 1 101 5,
        Transaction.Dispute 1 101, Transaction.Chargeback 1 101]).transaction_log 100
      = some (Transaction.Deposit 1 100 10) ∧
    ((Engine.run Engine.new [Transaction.Deposit 1 100 10, Transaction.Deposit 1 101 5,
        Transaction.Dispute 1 101, Transaction.Chargeback 1 101]).execute
          (Transaction.Dispute 1 100)).2 = some ExecutionError.AccountLocked := by
  decide

/-- C4 (amended): Dispute fails with `AlreadyDisputedTransaction` when the id
is already disputed, `TransactionNotFound` when absent from History,
`IneligibleTransaction` when the entry is not a Deposit, and `AccountLocked`
when the owning account is locked; otherwise it succeeds, moves the settled
amount from `available` to `held` on the owning account (total unchanged) and
adds the id to the Dispute Set. -/
theorem C4_dispute_semantics (e : Engine) (x tx_id : Nat) :
    (e.disputed_transactions tx_id = true →
        e.execute (Transaction.Dispute x tx_id)
          = (e, some ExecutionError.AlreadyDisputedTransaction)) ∧
    (e.disputed_transactions tx_id = false → e.transaction_log tx_id = none →
        e.execute (Transaction.Dispute x tx_id)
          = (e, some ExecutionError.TransactionNotFound)) ∧
    (∀ tr : Transaction, e.disputed_transactions tx_id = false →
        e.transaction_log tx_id = some tr →
        (∀ (c t2 : Nat) (a : Amount), tr ≠ Transaction.Deposit c t2 a) →
        e.execute (Transaction.Dispute x tx_id)
          = (e, some ExecutionError.IneligibleTransaction)) ∧
    (∀ (c t2 : Nat) (a : Amount), e.disputed_transactions tx_id = false →
        e.transaction_log tx_id = some (Transaction.Deposit c t2 a) →
        (e.getClient c).locked = true →
        (e.execute (Transaction.Dispute x tx_id)).2 = some ExecutionError.AccountLocked) ∧
    (∀ (c t2 : Nat) (a : Amount), e.disputed_transactions tx_id = false →
        e.transaction_log tx_id = some (Transaction.Deposit c t2 a) →
        (e.getClient c).locked = false →
        (e.execute (Transaction.Dispute x tx_id)).2 = none ∧
        ((e.execute (Transaction.Dispute x tx_id)).1.getClient c).available
            = (e.getClient c).available - a ∧
        ((e.execute (Transaction.Dispute x tx_id)).1.getClient c).held
            = (e.getClient c).held + a ∧
        ((e.execute (Transaction.Dispute x tx_id)).1.getClient c).total
            = (e.getClient c).total ∧
        (e.execute (Transaction.Dispute x tx_id)).1.disputed_transactions tx_id = true) := by
  refine ⟨?_, ?_, ?_, ?_, ?_⟩
  · intro hd
    rw [execute_dispute]
    simp [hd]
  · intro hd hlog
    rw [execute_dispute]
    simp [hd, fetch_of_none e tx_id hlog]
  · intro tr hd hlog hne
    rw [execute_dispute]
    simp [hd, fetch_of_other e tx_id tr hlog hne]
  · intro c t2 a hd hlog hl
    rw [execute_dispute]
    simp [hd, fetch_of_deposit e tx_id c t2 a hlog, hl]
  · intro c t2 a hd hlog hl
    rw [execute_dispute]
    simp only [hd, Bool.false_eq_true, if_false, fetch_of_deposit e tx_id c t2 a hlog,
      hl, if_true]
    refine ⟨trivial, ?_, ?_, ?_, ?_⟩
    · rw [getClient_after_insert]
      simp
    · rw [getClient_after_insert]
      simp
    · rw [getClient_after_insert]
      simp
    · simp [setInsert]

theorem C4_witness :
    (Engine.run Engine.new [Transaction.Deposit 1 100 10]).disputed_transactions 100 = false ∧
    (Engine.run Engine.new [Transaction.Deposit 1 100 10]).transaction_log 100
        = some (Transaction.Deposit 1 100 10) ∧
    ((Engine.run Engine.new [Transaction.Deposit 1 100 10]).getClient 1).locked = false ∧
    ((Engine.run Engine.new [Transaction.Deposit 1 100 10]).execute
        (Transaction.Dispute 1 100)).2 = none :=
  ⟨by decide, by decide, by decide,
   ((C4_dispute_semantics (Engine.run Engine.new [Transaction.Deposit 1 100 10])
        1 100).2.2.2.2 1 100 10 (by decide) (by decide) (by decide)).1⟩


/-- C5 counterexample: after `Deposit(1,100,10)`, `Deposit(1,102,5)`,
`Dispute(1,100)`, `Withdrawal(1,100,5)` the reused id 100 overwrote the
disputed Deposit's History entry with a Withdrawal; tx 100 is still in the
Dispute Set, yet `Resolve(1,100)` fails with `IneligibleTransaction`, so
membership in the Dispute Set does not make Resolve always succeed. -/
theorem C5_counterexample :
    (Engine.run Engine.new [Transaction.Deposit 1 100 10, Transaction.Deposit 1 102 5,
        Transaction.Dispute 1 100, Transaction.Withdrawal 1 100 5]).disputed_transactions 100
      = true ∧
    ((Engine.run Engine.new [Transaction.Deposit 1 100 10, Transaction.Deposit 1 102 5,
        Transaction.Dispute 1 100, Transaction.Withdrawal 1 100 5]).execute
          (Transaction.Resolve 1 100)).2 = some ExecutionError.IneligibleTransaction := by
  decide

/-- C5 (amended): Resolve on an id outside the Dispute Set fails with
`NonDisputedTransaction` and mutates nothing; on a disputed id the shared
History lookup and the account-lock check can still fail, but whenever the
History entry for the id is a Deposit whose owning account is unlocked,
Resolve succeeds, adds the settled amount back to `available`, subtracts it
from `held`, and removes the id from the Dispute Set. -/
theorem C5_resolve_semantics (e : Engine) (x tx_id : Nat) :
    (e.disputed_transactions tx_id = false →
        e.execute (Transaction.Resolve x tx_id)
          = (e, some ExecutionError.NonDisputedTransaction)) ∧
    (∀ (c t2 : Nat) (a : Amount), e.disputed_transactions tx_id = true →
        e.transaction_log tx_id = some (Transaction.Deposit c t2 a) →
        (e.getClient c).locked = false →
        (e.execute (Transaction.Resolve x tx_id)).2 = none ∧
        ((e.execute (Transaction.Resolve x tx_id)).1.getClient c).available
            = (e.getClient c).available + a ∧
        ((e.execute (Transaction.Resolve x tx_id)).1.getClient c).held
            = (e.getClient c).held - a ∧
        (e.execute (Transaction.Resolve x tx_id)).1.disputed_transactions tx_id = false) := by
  constructor
  · intro hd
    rw [execute_resolve]
    simp [hd]
  · intro c t2 a hd hlog hl
    rw [execute_resolve]
    simp only [hd, Bool.true_eq_false, if_false, fetch_of_deposit e tx_id c t2 a hlog,
      hl, Bool.false_eq_true]
    refine ⟨trivial, ?_, ?_, ?_⟩
    · rw [getClient_after_insert]
      simp
    · rw [getClient_after_insert]
      simp
    · simp [setRemove]

theorem C5_witness :
    (Engine.run Engine.new [Transaction.Deposit 1 100 10,
        Transaction.Dispute 1 100]).disputed_transactions 100 = true ∧
    (Engine.run Engine.new [Transaction.Deposit 1 100 10,
        Transaction.Dispute 1 100]).transaction_log 100
      = some (Transaction.Deposit 1 100 10) ∧
    ((Engine.run Engine.new [Transaction.Deposit 1 100 10,
        Transaction.Dispute 1 100]).getClient 1).locked = false ∧
    ((Engine.run Engine.new [Transaction.Deposit 1 100 10,
        Transaction.Dispute 1 100]).execute (Transaction.Resolve 1 100)).2 = none :=
  ⟨by decide, by decide, by decide,
   ((C5_resolve_semantics (Engine.run Engine.new [Transaction.Deposit 1 100 10,
        Transaction.Dispute 1 100]) 1 100).2 1 100 10
      (by decide) (by decide) (by decide)).1⟩

/-- C6: a successful Chargeback on a disputed Deposit reduces the owning
account's `held` and `total` by the disputed amount, sets `locked`, removes
the id from the Dispute Set, and after any further sequence of transactions
the account is still locked and every Deposit or Withdrawal on it fails with
`AccountLocked`. -/
theorem C6_chargeback_locks (e : Engine) (x tx_id c t2 : Nat) (a : Amount)
    (hd : e.disputed_transactions tx_id = true)
    (hlog : e.transaction_log tx_id = some (Transaction.Deposit c t2 a))
    (hl : (e.getClient c).locked = false) :
    (e.execute (Transaction.Chargeback x tx_id)).2 = none ∧
    ((e.execute (Transaction.Chargeback x tx_id)).1.getClient c).held
        = (e.getClient c).held - a ∧
    ((e.execute (Transaction.Chargeback x tx_id)).1.getClient c).total
        = (e.getClient c).total - a ∧
    ((e.execute (Transaction.Chargeback x tx_id)).1.getClient c).locked = true ∧
    (e.execute (Transaction.Chargeback x tx_id)).1.disputed_transactions tx_id = false ∧
    (∀ (txs : List Transaction) (t3 : Nat) (a3 : Amount),
        ((Engine.run (e.execute (Transaction.Chargeback x tx_id)).1 txs).getClient c).locked
            = true ∧
        ((Engine.run (e.execute (Transaction.Chargeback x tx_id)).1 txs).execute
            (Transaction.Deposit c t3 a3)).2 = some ExecutionError.AccountLocked ∧
        ((Engine.run (e.execute (Transaction.Chargeback x tx_id)).1 txs).execute
            (Transaction.Withdrawal c t3 a3)).2 = some ExecutionError.AccountLocked) := by
  rw [execute_chargeback]
  simp only [hd, Bool.true_eq_false, if_false, fetch_of_deposit e tx_id c t2 a hlog,
    hl, Bool.false_eq_true]
  have hlk :
      ((Engine.mk
          (mapInsert (e.ensureClient c).clients c
            { e.getClient c with
                held := (e.getClient c).held - a,
                total := (e.getClient c).total - a,
                locked := true })
          (e.ensureClient c).transaction_log
          (setRemove (e.ensureClient c).disputed_transactions tx_id)).getClient c).locked
        = true := by
    rw [getClient_after_insert]
    simp
  refine ⟨trivial, ?_, ?_, ?_, ?_, ?_⟩
  · rw [getClient_after_insert]
    simp
  · rw [getClient_after_insert]
    simp
  · exact hlk
  · simp [setRemove]
  · intro txs t3 a3
    have hrun := locked_persists_run _ txs c hlk
    refine ⟨hrun, ?_, ?_⟩
    · rw [execute_deposit_locked _ c t3 a3 hrun]
    · rw [execute_withdrawal_locked _ c t3 a3 hrun]

theorem C6_witness :
    (Engine.run Engine.new [Transaction.Deposit 1 100 10,
        Transaction.Dispute 1 100]).disputed_transactions 100 = true ∧
    (Engine.run Engine.new [Transaction.Deposit 1 100 10,
        Transaction.Dispute 1 100]).transaction_log 100
      = some (Transaction.Deposit 1 100 10) ∧
    ((Engine.run Engine.new [Transaction.Deposit 1 100 10,
        Transaction.Dispute 1 100]).getClient 1).locked = false ∧
    ((Engine.run Engine.new [Transaction.Deposit 1 100 10,
        Transaction.Dispute 1 100]).execute (Transaction.Chargeback 1 100)).2 = none :=
  ⟨by decide, by decide, by decide,
   (C6_chargeback_locks (Engine.run Engine.new [Transaction.Deposit 1 100 10,
        Transaction.Dispute 1 100]) 1 100 1 100 10
      (by decide) (by decide) (by decide)).1⟩


theorem dispute_success_eq (e : Engine) (x tx_id c t2 : Nat) (a : Amount)
    (hd : e.disputed_transactions tx_id = false)
    (hlog : e.transaction_log tx_id = some (Transaction.Deposit c t2 a))
    (hl : (e.getClient c).locked = false) :
    e.execute (Transaction.Dispute x tx_id)
      = (Engine.mk
          (mapInsert (e.ensureClient c).clients c
            { e.getClient c with
                available := (e.getClient c).available - a,
                held := (e.getClient c).held + a })
          (e.ensureClient c).transaction_log
          (setInsert (e.ensureClient c).disputed_transactions tx_id), none) := by
  rw [execute_dispute]
  simp [hd, fetch_of_deposit e tx_id c t2 a hlog, hl]

theorem resolve_success_eq (e : Engine) (x tx_id c t2 : Nat) (a : Amount)
    (hd : e.disputed_transactions tx_id = true)
    (hlog : e.transaction_log tx_id = some (Transaction.Deposit c t2 a))
    (hl : (e.getClient c).locked = false) :
    e.execute (Transaction.Resolve x tx_id)
      = (Engine.mk
          (mapInsert (e.ensureClient c).clients c
            { e.getClient c with
                available := (e.getClient c).available + a,
                held := (e.getClient c).held - a })
          (e.ensureClient c).transaction_log
          (setRemove (e.ensureClient c).disputed_transactions tx_id), none) := by
  rw [execute_resolve]
  simp [hd, fetch_of_deposit e tx_id c t2 a hlog, hl]

/-- C7: on any state where tx_id is an undisputed Deposit of amount `a` owned
by an unlocked account, Dispute(x, tx_id) succeeds and an immediately
following Resolve(y, tx_id) succeeds and restores the owner's `available` and
`held` to exactly their pre-dispute values. -/
theorem C7_dispute_resolve_roundtrip (e : Engine) (x y tx_id c t2 : Nat) (a : Amount)
    (hnd : e.disputed_transactions tx_id = false)
    (hlog : e.transaction_log tx_id = some (Transaction.Deposit c t2 a))
    (hl : (e.getClient c).locked = false) :
    (e.execute (Transaction.Dispute x tx_id)).2 = none ∧
    ((e.execute (Transaction.Dispute x tx_id)).1.execute (Transaction.Resolve y tx_id)).2
        = none ∧
    (((e.execute (Transaction.Dispute x tx_id)).1.execute
        (Transaction.Resolve y tx_id)).1.getClient c).available
      = (e.getClient c).available ∧
    (((e.execute (Transaction.Dispute x tx_id)).1.execute
        (Transaction.Resolve y tx_id)).1.getClient c).held
      = (e.getClient c).held := by
  have hD := dispute_success_eq e x tx_id c t2 a hnd hlog hl
  set E1 : Engine := Engine.mk
      (mapInsert (e.ensureClient c).clients c
        { e.getClient c with
            available := (e.getClient c).available - a,
            held := (e.getClient c).held + a })
      (e.ensureClient c).transaction_log
      (setInsert (e.ensureClient c).disputed_transactions tx_id) with hE1
  have h1 : E1.disputed_transactions tx_id = true := by
    rw [hE1]
    simp [setInsert]
  have h2 : E1.transaction_log tx_id = some (Transaction.Deposit c t2 a) := by
    rw [hE1]
    show (e.ensureClient c).transaction_log tx_id = _
    rw [ensureClient_transaction_log]
    exact hlog
  have hgc : (E1.getClient c).available = (e.getClient c).available - a
      ∧ (E1.getClient c).held = (e.getClient c).held + a
      ∧ (E1.getClient c).locked = false := by
    rw [hE1, getClient_after_insert]
    simp [hl]
  have hR := resolve_success_eq E1 y tx_id c t2 a h1 h2 hgc.2.2
  rw [hD]
  refine ⟨rfl, ?_, ?_, ?_⟩
  · show (E1.execute (Transaction.Resolve y tx_id)).2 = none
    rw [hR]
  · show ((E1.execute (Transaction.Resolve y tx_id)).1.getClient c).available
        = (e.getClient c).available
    rw [hR]
    show ((Engine.mk (mapInsert (E1.ensureClient c).clients c
        { E1.getClient c with
            available := (E1.getClient c).available + a,
            held := (E1.getClient c).held - a })
        (E1.ensureClient c).transaction_log
        (setRemove (E1.ensureClient c).disputed_transactions tx_id)).getClient c).available
      = (e.getClient c).available
    rw [getClient_after_insert]
    simp [hgc.1]
  · show ((E1.execute (Transaction.Resolve y tx_id)).1.getClient c).held
        = (e.getClient c).held
    rw [hR]
    show ((Engine.mk (mapInsert (E1.ensureClient c).clients c
        { E1.getClient c with
            available := (E1.getClient c).available + a,
            held := (E1.getClient c).held - a })
        (E1.ensureClient c).transaction_log
        (setRemove (E1.ensureClient c).disputed_transactions tx_id)).getClient c).held
      = (e.getClient c).held
    rw [getClient_after_insert]
    simp [hgc.2.1]

theorem C7_witness :
    (Engine.run Engine.new [Transaction.Deposit 1 100 10]).disputed_transactions 100 = false ∧
    (Engine.run Engine.new [Transaction.Deposit 1 100 10]).transaction_log 100
        = some (Transaction.Deposit 1 100 10) ∧
    ((Engine.run Engine.new [Transaction.Deposit 1 100 10]).getClient 1).locked = false ∧
    ((((Engine.run Engine.new [Transaction.Deposit 1 100 10]).execute
          (Transaction.Dispute 1 100)).1.execute
            (Transaction.Resolve 1 100)).1.getClient 1).available
      = ((Engine.run Engine.new [Transaction.Deposit 1 100 10]).getClient 1).available :=
  ⟨by decide, by decide, by decide,
   (C7_dispute_resolve_roundtrip (Engine.run Engine.new [Transaction.Deposit 1 100 10])
      1 1 100 1 100 10 (by decide) (by decide) (by decide)).2.2.1⟩


/-- C8: a Deposit on an unlocked account whose tx_id already has a History
entry succeeds and silently overwrites that entry with the new deposit's
account and amount, so a later dispute lookup of that tx_id returns the most
recently stored owner and amount. -/
theorem C8_deposit_overwrites (e : Engine) (c tx_id : Nat) (a : Amount) (tr0 : Transaction)
    (_hold : e.transaction_log tx_id = some tr0)
    (hl : (e.getClient c).locked = false) :
    (e.execute (Transaction.Deposit c tx_id a)).2 = none ∧
    (e.execute (Transaction.Deposit c tx_id a)).1.transaction_log tx_id
        = some (Transaction.Deposit c tx_id a) ∧
    (e.execute (Transaction.Deposit c tx_id a)).1.fetch_disputed_transaction tx_id
        = Except.ok (c, a) := by
  rw [execute_deposit]
  simp only [hl, Bool.false_eq_true, if_false]
  refine ⟨trivial, ?_, ?_⟩
  · simp [mapInsert]
  · exact fetch_of_deposit _ tx_id c tx_id a (by simp [mapInsert])

theorem C8_witness :
    (Engine.run Engine.new [Transaction.Deposit 1 100 10]).transaction_log 100
        = some (Transaction.Deposit 1 100 10) ∧
    ((Engine.run Engine.new [Transaction.Deposit 1 100 10]).getClient 2).locked = false ∧
    ((Engine.run Engine.new [Transaction.Deposit 1 100 10]).execute
        (Transaction.Deposit 2 100 7)).1.fetch_disputed_transaction 100
      = Except.ok (2, 7) :=
  ⟨by decide, by decide,
   (C8_deposit_overwrites (Engine.run Engine.new [Transaction.Deposit 1 100 10])
      2 100 7 (Transaction.Deposit 1 100 10) (by decide) (by decide)).2.2⟩

/-- C9: when the account owning the Deposit recorded under tx_id is locked, a
Dispute of that not-yet-disputed entry fails with `AccountLocked`, and a
Resolve or Chargeback of that still-disputed entry fails with `AccountLocked`
rather than succeeding. -/
theorem C9_locked_owner_blocks_dispute_family (e : Engine) (x tx_id c t2 : Nat) (a : Amount)
    (hlog : e.transaction_log tx_id = some (Transaction.Deposit c t2 a))
    (hlk : (e.getClient c).locked = true) :
    (e.disputed_transactions tx_id = false →
        (e.execute (Transaction.Dispute x tx_id)).2 = some ExecutionError.AccountLocked) ∧
    (e.disputed_transactions tx_id = true →
        (e.execute (Transaction.Resolve x tx_id)).2 = some ExecutionError.AccountLocked ∧
        (e.execute (Transaction.Chargeback x tx_id)).2 = some ExecutionError.AccountLocked) := by
  constructor
  · intro hd
    rw [execute_dispute]
    simp [hd, fetch_of_deposit e tx_id c t2 a hlog, hlk]
  · intro hd
    constructor
    · rw [execute_resolve]
      simp [hd, fetch_of_deposit e tx_id c t2 a hlog, hlk]
    · rw [execute_chargeback]
      simp [hd, fetch_of_deposit e tx_id c t2 a hlog, hlk]

theorem C9_witness :
    (Engine.run Engine.new [Transaction.Deposit 1 100 10, Transaction.Deposit 1 101 5,
        Transaction.Dispute 1 100, Transaction.Dispute 1 101,
        Transaction.Chargeback 1 101]).transaction_log 100
      = some (Transaction.Deposit 1 100 10) ∧
    ((Engine.run Engine.new [Transaction.Deposit 1 100 10, Transaction.Deposit 1 101 5,
        Transaction.Dispute 1 100, Transaction.Dispute 1 101,
        Transaction.Chargeback 1 101]).getClient 1).locked = true ∧
    (Engine.run Engine.new [Transaction.Deposit 1 100 10, Transaction.Deposit 1 101 5,
        Transaction.Dispute 1 100, Transaction.Dispute 1 101,
        Transaction.Chargeback 1 101]).disputed_transactions 100 = true ∧
    ((Engine.run Engine.new [Transaction.Deposit 1 100 10, Transaction.Deposit 1 101 5,
        Transaction.Dispute 1 100, Transaction.Dispute 1 101,
        Transaction.Chargeback 1 101]).execute (Transaction.Resolve 1 100)).2
      = some ExecutionError.AccountLocked :=
  ⟨by decide, by decide, by decide,
   ((C9_locked_owner_blocks_dispute_family
      (Engine.run Engine.new [Transaction.Deposit 1 100 10, Transaction.Deposit 1 101 5,
        Transaction.Dispute 1 100, Transaction.Dispute 1 101,
        Transaction.Chargeback 1 101]) 1 100 1 100 10
      (by decide) (by decide)).2 (by decide)).1⟩


theorem clients_ne_after_insert (e : Engine) (c0 x : Nat) (v : Client) (h : x ≠ c0) :
    mapInsert (e.ensureClient c0).clients c0 v x = e.clients x := by
  rw [mapInsert_ne _ _ _ _ h, ensureClient_clients_ne e c0 x h]

/-- C10: Dispute, Resolve and Chargeback are insensitive to the account
identifier carried by the transaction — the result is identical for any two
named accounts — and when the History entry for tx_id is a Deposit owned by a
different account, the named account's ledger entry is never touched while a
successful Dispute mutates the stored owner. -/
theorem C10_dispute_family_ignores_named_account (e : Engine)
    (c1 c2 c0 t2 tx_id : Nat) (a : Amount) :
    (e.execute (Transaction.Dispute c1 tx_id) = e.execute (Transaction.Dispute c2 tx_id) ∧
     e.execute (Transaction.Resolve c1 tx_id) = e.execute (Transaction.Resolve c2 tx_id) ∧
     e.execute (Transaction.Chargeback c1 tx_id)
        = e.execute (Transaction.Chargeback c2 tx_id)) ∧
    (e.transaction_log tx_id = some (Transaction.Deposit c0 t2 a) → c1 ≠ c0 →
        (e.execute (Transaction.Dispute c1 tx_id)).1.clients c1 = e.clients c1 ∧
        (e.execute (Transaction.Resolve c1 tx_id)).1.clients c1 = e.clients c1 ∧
        (e.execute (Transaction.Chargeback c1 tx_id)).1.clients c1 = e.clients c1 ∧
        ((e.execute (Transaction.Dispute c1 tx_id)).2 = none →
            ((e.execute (Transaction.Dispute c1 tx_id)).1.getClient c0).held
              = (e.getClient c0).held + a)) := by
  constructor
  · refine ⟨?_, ?_, ?_⟩
    · rw [execute_dispute, execute_dispute]
    · rw [execute_resolve, execute_resolve]
    · rw [execute_chargeback, execute_chargeback]
  · intro hlog hne
    refine ⟨?_, ?_, ?_, ?_⟩
    · rw [execute_dispute]
      by_cases hd : e.disputed_transactions tx_id = true
      · simp [hd]
      · simp only [hd, Bool.false_eq_true, if_false,
          fetch_of_deposit e tx_id c0 t2 a hlog]
        by_cases hlk : (e.getClient c0).locked = true
        · simp only [hlk, if_true]
          exact ensureClient_clients_ne e c0 c1 hne
        · simp only [hlk, Bool.false_eq_true, if_false]
          exact clients_ne_after_insert e c0 c1 _ hne
    · rw [execute_resolve]
      by_cases hd : e.disputed_transactions tx_id = true
      · simp only [hd, Bool.true_eq_false, if_false,
          fetch_of_deposit e tx_id c0 t2 a hlog]
        by_cases hlk : (e.getClient c0).locked = true
        · simp only [hlk, if_true]
          exact ensureClient_clients_ne e c0 c1 hne
        · simp only [hlk, Bool.false_eq_true, if_false]
          exact clients_ne_after_insert e c0 c1 _ hne
      · simp only [Bool.not_eq_true] at hd
        simp [hd]
    · rw [execute_chargeback]
      by_cases hd : e.disputed_transactions tx_id = true
      · simp only [hd, Bool.true_eq_false, if_false,
          fetch_of_deposit e tx_id c0 t2 a hlog]
        by_cases hlk : (e.getClient c0).locked = true
        · simp only [hlk, if_true]
          exact ensureClient_clients_ne e c0 c1 hne
        · simp only [hlk, Bool.false_eq_true, if_false]
          exact clients_ne_after_insert e c0 c1 _ hne
      · simp only [Bool.not_eq_true] at hd
        simp [hd]
    · intro hsucc
      rw [execute_dispute] at hsucc ⊢
      by_cases hd : e.disputed_transactions tx_id = true
      · simp [hd] at hsucc
      · simp only [hd, Bool.false_eq_true, if_false,
          fetch_of_deposit e tx_id c0 t2 a hlog] at hsucc ⊢
        by_cases hlk : (e.getClient c0).locked = true
        · simp [hlk] at hsucc
        · simp only [hlk, Bool.false_eq_true, if_false]
          rw [getClient_after_insert]
          simp

theorem C10_witness :
    (Engine.run Engine.new [Transaction.Deposit 1 100 10]).transaction_log 100
        = some (Transaction.Deposit 1 100 10) ∧
    (2 : Nat) ≠ 1 ∧
    ((Engine.run Engine.new [Transaction.Deposit 1 100 10]).execute
        (Transaction.Dispute 2 100)).1.clients 2
      = (Engine.run Engine.new [Transaction.Deposit 1 100 10]).clients 2 :=
  ⟨by decide, by decide,
   ((C10_dispute_family_ignores_named_account
      (Engine.run Engine.new [Transaction.Deposit 1 100 10])
      2 3 1 100 100 10).2 (by decide) (by decide)).1⟩

end PaymentEngine
